import Mathlib

/-!
Verification of the moneybird-agent invoice-processing pipeline.

This file gives a shallow embedding of the pipeline nodes of the
repository (the LangGraph nodes under src/agent, the routing functions in
src/agent/graph.ts, and the storage layer in src/storage) and proves the
specified properties about them.

Modelling conventions:
* JavaScript numbers are modelled as rationals; monetary invoice fields
  carry integer minor-currency units inside those rationals.
* Absent (undefined) values are modelled with Option; JavaScript
  truthiness on strings and numbers is made explicit through the helpers
  strTruthy and numTruthy.
* Dates are modelled as integer day numbers, so that the 30-day window
  arithmetic of matchTransactions is exact; date strings in the source
  are nonempty whenever present, so truthiness of a date is isSome.
* Every external call (platform client, language model, database clock)
  is passed in explicitly as an oracle argument; a failing call is the
  none case of the corresponding Option.
-/

namespace MoneybirdAgent

/-- Truthiness of an optional JavaScript string: undefined and the empty
string are falsy, every other string is truthy. -/
def strTruthy : Option String → Bool
  | none => false
  | some s => !s.isEmpty

/-- Truthiness of an optional JavaScript number: undefined and 0 are
falsy, every other number is truthy. -/
def numTruthy : Option ℚ → Bool
  | none => false
  | some q => decide (q ≠ 0)

/-- JavaScript Math.round: rounds half away from zero toward positive
infinity, i.e. floor of x + 1/2. -/
def jsRound (q : ℚ) : ℚ := (⌊q + 1/2⌋ : ℤ)

/-- JavaScript Math.abs on rationals. -/
def jsAbs (q : ℚ) : ℚ := |q|

/-- ASCII lowering of one character, as toLowerCase acts on the ASCII
names involved here. -/
def charLower (c : Char) : Char :=
  if 'A' ≤ c ∧ c ≤ 'Z' then Char.ofNat (c.toNat + 32) else c

/-- JavaScript toLowerCase on the ASCII fragment. -/
def strLower (s : String) : String := ⟨s.data.map charLower⟩

/-- JavaScript whitespace test used by trim. -/
def jsWhite (c : Char) : Bool := c == ' ' || c == '\t' || c == '\n' || c == '\r'

/-- JavaScript String.trim: strip leading and trailing whitespace. -/
def strTrim (s : String) : String :=
  ⟨((s.data.dropWhile jsWhite).reverse.dropWhile jsWhite).reverse⟩

/-- Decision Record produced by every judgment-making stage
(src/agent/state.ts, AIDecisionSchema): a confidence score, a free-text
justification and a review-required flag. -/
structure AIDecision where
  confidence : ℚ
  reasoning : String
  requiresReview : Bool
deriving DecidableEq, Repr

/-- Lifecycle state of a Moneybird purchase invoice
(src/moneybird/types.ts). -/
inductive InvoiceState where
  | new | draft | opened | paid | late | reminded
deriving DecidableEq, Repr

/-- Projection of a Moneybird contact onto the fields the pipeline
reads (src/moneybird/types.ts). -/
structure MoneybirdContact where
  id : String
  company_name : Option String := none
  firstname : Option String := none
  lastname : Option String := none
  bank_account : Option String := none
  tax_number : Option String := none
deriving DecidableEq, Repr

/-- Projection of a Moneybird purchase invoice onto the fields the
pipeline reads (src/moneybird/types.ts).  Amount fields are in integer
minor-currency units (cents), carried as rationals. -/
structure MoneybirdInvoice where
  id : String
  contact_id : Option String := none
  contact : Option MoneybirdContact := none
  total_price_excl_tax : Option ℚ := none
  total_price_incl_tax : Option ℚ := none
  tax : Option ℚ := none
  invoice_date : Option ℤ := none
  state : InvoiceState := .new
  reference : Option String := none
  notes : Option String := none
  currency : Option String := none
deriving DecidableEq, Repr

/-- Invoice extraction result (src/agent/state.ts,
InvoiceExtractionSchema).  Amounts are in decimal major-currency units. -/
structure InvoiceExtraction where
  supplier_name : Option String := none
  supplier_iban : Option String := none
  supplier_vat : Option String := none
  amount_excl_tax : Option ℚ := none
  amount_incl_tax : Option ℚ := none
  tax_amount : Option ℚ := none
  tax_rate : Option ℚ := none
  invoice_date : Option ℤ := none
  invoice_number : Option String := none
  description : Option String := none
  currency : Option String := none
  confidence : ℚ := 0
deriving DecidableEq, Repr

/-- Projection of a Moneybird financial transaction onto the fields
matchTransactions reads (src/moneybird/types.ts). -/
structure MoneybirdTransaction where
  id : String
  date : ℤ
  amount : ℚ
  description : Option String := none
deriving DecidableEq, Repr

/-- Result of the amount validation in validateInvoice. -/
structure AmountValidation where
  isValid : Bool
  discrepancy : Option ℚ := none
deriving DecidableEq, Repr

/-- The booking action chosen by the confidence gate. -/
inductive GateAction where
  | auto_book | flag_review | alert_user
deriving DecidableEq, Repr

/-- Workflow State: the accumulator passed through the pipeline
(src/agent/state.ts, AgentStateSchema / the Annotation.Root record in
src/agent/graph.ts). -/
structure AgentState where
  invoice : Option MoneybirdInvoice := none
  invoicePdfPath : Option String := none
  invoicePdfText : Option String := none
  extraction : Option InvoiceExtraction := none
  contact : Option MoneybirdContact := none
  contactMatchDecision : Option AIDecision := none
  isNewContact : Bool := false
  validationDecision : Option AIDecision := none
  amountValidation : Option AmountValidation := none
  kostenpostId : Option String := none
  kostenpostDecision : Option AIDecision := none
  matchedTransaction : Option MoneybirdTransaction := none
  matchDecision : Option AIDecision := none
  overallConfidence : Option ℚ := none
  action : Option GateAction := none
  error : Option String := none
  currentNode : Option String := none
  processingStartedAt : Option String := none
  processingCompletedAt : Option String := none
deriving DecidableEq, Repr

/-- A partial state update returned by a node.  A field that the
source return statement omits is none and leaves the accumulated state
untouched when merged. -/
structure StateUpdate where
  invoice : Option MoneybirdInvoice := none
  invoicePdfPath : Option String := none
  invoicePdfText : Option String := none
  extraction : Option InvoiceExtraction := none
  contact : Option MoneybirdContact := none
  contactMatchDecision : Option AIDecision := none
  isNewContact : Option Bool := none
  validationDecision : Option AIDecision := none
  amountValidation : Option AmountValidation := none
  kostenpostId : Option String := none
  kostenpostDecision : Option AIDecision := none
  matchedTransaction : Option MoneybirdTransaction := none
  matchDecision : Option AIDecision := none
  overallConfidence : Option ℚ := none
  action : Option GateAction := none
  error : Option String := none
  currentNode : Option String := none
  processingStartedAt : Option String := none
  processingCompletedAt : Option String := none
deriving DecidableEq, Repr

/-- LangGraph merge of a partial update into the accumulated state:
field-wise, the update value wins when present (the default reducer and
the explicit reducer of isNewContact in src/agent/graph.ts line 104 are
both last-non-absent-value-wins). -/
def applyUpdate (s : AgentState) (u : StateUpdate) : AgentState where
  invoice := u.invoice.or s.invoice
  invoicePdfPath := u.invoicePdfPath.or s.invoicePdfPath
  invoicePdfText := u.invoicePdfText.or s.invoicePdfText
  extraction := u.extraction.or s.extraction
  contact := u.contact.or s.contact
  contactMatchDecision := u.contactMatchDecision.or s.contactMatchDecision
  isNewContact := u.isNewContact.getD s.isNewContact
  validationDecision := u.validationDecision.or s.validationDecision
  amountValidation := u.amountValidation.or s.amountValidation
  kostenpostId := u.kostenpostId.or s.kostenpostId
  kostenpostDecision := u.kostenpostDecision.or s.kostenpostDecision
  matchedTransaction := u.matchedTransaction.or s.matchedTransaction
  matchDecision := u.matchDecision.or s.matchDecision
  overallConfidence := u.overallConfidence.or s.overallConfidence
  action := u.action.or s.action
  error := u.error.or s.error
  currentNode := u.currentNode.or s.currentNode
  processingStartedAt := u.processingStartedAt.or s.processingStartedAt
  processingCompletedAt := u.processingCompletedAt.or s.processingCompletedAt

/-- Initial Workflow State of a run (src/agent/state.ts,
createInitialState): isNewContact defaults to false. -/
def createInitialState (now : String) : AgentState :=
  { isNewContact := false, processingStartedAt := some now }

/-- The configured thresholds read by the confidence gate
(src/config/env.ts). -/
structure Env where
  CONFIDENCE_AUTO_THRESHOLD : ℚ := 95
  CONFIDENCE_REVIEW_THRESHOLD : ℚ := 80
  AMOUNT_REVIEW_THRESHOLD : ℚ := 100000
deriving DecidableEq, Repr

/-! ### Confidence gate (src/agent/nodes/confidenceGate.ts) -/

/-- The list of confidences collected by confidenceGate (lines 22-36):
one conditional push per Decision Record slot, in source order. -/
def gateConfidences (s : AgentState) : List ℚ :=
  (match s.contactMatchDecision with | some d => [d.confidence] | none => []) ++
  (match s.validationDecision with | some d => [d.confidence] | none => []) ++
  (match s.kostenpostDecision with | some d => [d.confidence] | none => []) ++
  (match s.matchDecision with | some d => [d.confidence] | none => [])

/-- Aggregate confidence (confidenceGate.ts lines 38-41): the mean of the
collected confidences, 0 when the list is empty. -/
def overallConfidence (s : AgentState) : ℚ :=
  let cs := gateConfidences s
  if cs.length > 0 then cs.sum / cs.length else 0

/-- The review-required disjunction of confidenceGate.ts lines 47-50:
an absent Decision Record contributes falsy. -/
def gateRequiresReview (s : AgentState) : Bool :=
  ((s.contactMatchDecision.map (·.requiresReview)).getD false) ||
  ((s.validationDecision.map (·.requiresReview)).getD false) ||
  ((s.kostenpostDecision.map (·.requiresReview)).getD false) ||
  ((s.matchDecision.map (·.requiresReview)).getD false)

/-- Action selection of confidenceGate.ts lines 43-63. -/
def confidenceGateAction (env : Env) (s : AgentState) : GateAction :=
  let isNewSupplier := s.isNewContact
  let invoiceAmount := (s.invoice.bind (·.total_price_incl_tax)).getD 0
  let isHighAmount := decide (invoiceAmount > env.AMOUNT_REVIEW_THRESHOLD)
  let requiresReview := gateRequiresReview s
  if isNewSupplier || isHighAmount || requiresReview then .alert_user
  else if overallConfidence s ≥ env.CONFIDENCE_AUTO_THRESHOLD then .auto_book
  else if overallConfidence s ≥ env.CONFIDENCE_REVIEW_THRESHOLD then .flag_review
  else .alert_user

/-- The partial update returned by confidenceGate (lines 65-69). -/
def confidenceGateUpdate (env : Env) (s : AgentState) : StateUpdate :=
  { currentNode := some "confidenceGate",
    overallConfidence := some (overallConfidence s),
    action := some (confidenceGateAction env s) }

/-- The Decision Records present in a state, in the fixed slot order
contact match, validation, classification, transaction match. -/
def presentDecisions (s : AgentState) : List AIDecision :=
  [s.contactMatchDecision, s.validationDecision,
   s.kostenpostDecision, s.matchDecision].filterMap id

theorem gateConfidences_eq_present (s : AgentState) :
    gateConfidences s = (presentDecisions s).map (·.confidence) := by
  cases hc : s.contactMatchDecision <;> cases hv : s.validationDecision <;>
    cases hk : s.kostenpostDecision <;> cases hm : s.matchDecision <;>
      simp [gateConfidences, presentDecisions, hc, hv, hk, hm]

theorem gateRequiresReview_iff (s : AgentState) :
    gateRequiresReview s = true ↔
      ∃ d ∈ presentDecisions s, d.requiresReview = true := by
  cases hc : s.contactMatchDecision <;> cases hv : s.validationDecision <;>
    cases hk : s.kostenpostDecision <;> cases hm : s.matchDecision <;>
      simp [gateRequiresReview, presentDecisions, hc, hv, hk, hm] <;>
        tauto

/-- C2: the aggregate confidence is the arithmetic mean of the
confidences of exactly the Decision Records present in the state; absent
records do not enter the denominator, and with no record present the
aggregate is 0. -/
theorem overallConfidence_is_mean_of_present (s : AgentState) :
    overallConfidence s =
      if presentDecisions s = [] then 0
      else ((presentDecisions s).map (·.confidence)).sum /
        (presentDecisions s).length := by
  unfold overallConfidence
  rw [gateConfidences_eq_present]
  rcases h : presentDecisions s with _ | ⟨d, ds⟩ <;> simp [h]

/-- C1: the gate chooses alert_user whenever isNewContact is set, the
tax-inclusive invoice amount exceeds the configured review threshold, or
a present Decision Record requires review, regardless of the aggregate
confidence; otherwise it books automatically at or above the auto
threshold, flags for review at or above the review threshold, and alerts
below both. -/
theorem confidenceGate_action_policy (env : Env) (s : AgentState) :
    confidenceGateAction env s =
      if s.isNewContact = true
          ∨ env.AMOUNT_REVIEW_THRESHOLD <
              (s.invoice.bind (·.total_price_incl_tax)).getD 0
          ∨ ∃ d ∈ presentDecisions s, d.requiresReview = true then
        GateAction.alert_user
      else if env.CONFIDENCE_AUTO_THRESHOLD ≤ overallConfidence s then
        GateAction.auto_book
      else if env.CONFIDENCE_REVIEW_THRESHOLD ≤ overallConfidence s then
        GateAction.flag_review
      else GateAction.alert_user := by
  unfold confidenceGateAction
  by_cases hnew : s.isNewContact = true
  · simp [hnew]
  · by_cases hamt : env.AMOUNT_REVIEW_THRESHOLD <
        (s.invoice.bind (·.total_price_incl_tax)).getD 0
    · simp [hnew, hamt]
    · by_cases hrev : ∃ d ∈ presentDecisions s, d.requiresReview = true
      · have hb : gateRequiresReview s = true := (gateRequiresReview_iff s).mpr hrev
        simp [hnew, hamt, hrev, hb]
      · have hb : gateRequiresReview s = false := by
          rcases hgb : gateRequiresReview s with _ | _
          · rfl
          · exact absurd ((gateRequiresReview_iff s).mp hgb) hrev
        have hnew' : s.isNewContact = false := by
          cases hni : s.isNewContact
          · rfl
          · exact absurd hni hnew
        simp [hnew', hamt, hrev, hb, not_lt.mp hamt]

/-! ### Validator (src/agent/nodes/validateInvoice.ts) -/

/-- The excl-tax amount used by validateInvoice (line 33): the invoice
field in cents, else the extraction amount converted to cents when
truthy, else 0. -/
def vAmountExcl (s : AgentState) : ℚ :=
  match s.invoice.bind (·.total_price_excl_tax) with
  | some q => q
  | none =>
    if numTruthy (s.extraction.bind (·.amount_excl_tax)) then
      jsRound (((s.extraction.bind (·.amount_excl_tax)).getD 0) * 100)
    else 0

/-- The incl-tax amount used by validateInvoice (line 34). -/
def vAmountIncl (s : AgentState) : ℚ :=
  match s.invoice.bind (·.total_price_incl_tax) with
  | some q => q
  | none =>
    if numTruthy (s.extraction.bind (·.amount_incl_tax)) then
      jsRound (((s.extraction.bind (·.amount_incl_tax)).getD 0) * 100)
    else 0

/-- The recorded tax amount used by validateInvoice (line 35). -/
def vTaxAmount (s : AgentState) : ℚ :=
  match s.invoice.bind (·.tax) with
  | some q => q
  | none =>
    if numTruthy (s.extraction.bind (·.tax_amount)) then
      jsRound (((s.extraction.bind (·.tax_amount)).getD 0) * 100)
    else 0

/-- Expected tax (line 39): incl-tax amount minus excl-tax amount. -/
def vExpectedTax (s : AgentState) : ℚ := vAmountIncl s - vAmountExcl s

/-- Arithmetic discrepancy between recorded and expected tax (line 43). -/
def vDiscrepancy (s : AgentState) : ℚ := jsAbs (vTaxAmount s - vExpectedTax s)

/-- Validity of the tax arithmetic (line 44): discrepancy below one cent. -/
def vIsValid (s : AgentState) : Bool := decide (vDiscrepancy s < 1)

/-- The validateInvoice node.  The llm argument is the outcome of the
language-model call together with JSON parsing: none when the call
throws or no JSON object is found (lines 74-82).  The numeric
interpolations of the source reasoning string are elided. -/
def validateInvoice (s : AgentState) (llm : Option AIDecision) : StateUpdate :=
  if s.invoice = none ∧ s.extraction = none then
    { error := some "No invoice or extraction data available",
      currentNode := some "validateInvoice" }
  else
    match llm with
    | none =>
      { error := some "No JSON found in LLM response",
        currentNode := some "validateInvoice" }
    | some d =>
      let isValid := vIsValid s
      let discrepancy := vDiscrepancy s
      let finalConfidence := if isValid then d.confidence else max 0 (d.confidence - 20)
      { currentNode := some "validateInvoice",
        validationDecision := some
          { confidence := finalConfidence,
            reasoning := d.reasoning ++
              (if isValid then ". Amounts match." else ". Discrepancy recorded."),
            requiresReview := d.requiresReview || !isValid || decide (discrepancy > 100) },
        amountValidation := some
          { isValid := isValid,
            discrepancy := if discrepancy > 1 then some discrepancy else none } }

/-- Concrete validator input: incl 121, excl 100, recorded tax 0, so the
discrepancy is 21 cents. -/
def validateCexInvoice : MoneybirdInvoice :=
  { id := "inv1", total_price_excl_tax := some 100,
    total_price_incl_tax := some 121, tax := some 0 }

/-- Workflow state holding only the concrete validator invoice. -/
def validateCexState : AgentState := { invoice := some validateCexInvoice }

/-- Concrete model decision: confidence 90 and requiresReview false. -/
def validateCexDecision : AIDecision :=
  { confidence := 90, reasoning := "ok", requiresReview := false }

/-- C3 counterexample: at discrepancy 21 (at most 100 minor units) with
the model flag false, the produced Decision Record nevertheless has
requiresReview true, so the flag does not equal the model flag as the
claim states. -/
theorem validateInvoice_c3_counterexample :
    ¬ (vDiscrepancy validateCexState ≤ 100 →
        ((validateInvoice validateCexState (some validateCexDecision)).validationDecision.map
          (·.requiresReview)) = some validateCexDecision.requiresReview) := by
  intro h
  have h21 : vDiscrepancy validateCexState = 21 := by
    simp [vDiscrepancy, vTaxAmount, vExpectedTax, vAmountIncl, vAmountExcl,
      validateCexState, validateCexInvoice, jsAbs]
    norm_num
  have := h (by rw [h21]; norm_num)
  have hne : ¬ (validateCexState.invoice = none ∧ validateCexState.extraction = none) := by
    simp [validateCexState]
  have hnv : vIsValid validateCexState = false := by
    rw [vIsValid, h21]; norm_num
  rw [show (validateInvoice validateCexState (some validateCexDecision)).validationDecision.map
      (·.requiresReview) = some true by
    simp only [validateInvoice, if_neg hne]
    simp [hnv, validateCexDecision]] at this
  simp [validateCexDecision] at this

/-- C3 amended: when the language-model call succeeds, the final
confidence is the model confidence minus 20 floored at 0 whenever the
discrepancy is at least 1 minor unit (unchanged only below 1), and
requiresReview is the model flag OR-ed with whether the discrepancy is
at least 1 minor unit: any nonzero discrepancy, not only one exceeding
100, forces review. -/
theorem validateInvoice_validation_semantics (s : AgentState) (d : AIDecision)
    (h : ¬ (s.invoice = none ∧ s.extraction = none)) :
    ((validateInvoice s (some d)).validationDecision.map (·.confidence))
        = some (if vDiscrepancy s < 1 then d.confidence else max 0 (d.confidence - 20)) ∧
    ((validateInvoice s (some d)).validationDecision.map (·.requiresReview))
        = some (d.requiresReview || decide (1 ≤ vDiscrepancy s)) := by
  constructor
  · simp only [validateInvoice, if_neg h]
    by_cases hv : vDiscrepancy s < 1 <;> simp [vIsValid, hv]
  · simp only [validateInvoice, if_neg h]
    by_cases hv : vDiscrepancy s < 1
    · have h100 : ¬ (vDiscrepancy s > 100) := by linarith
      simp [vIsValid, hv, h100, not_le.mpr hv]
    · have h1 : (1 : ℚ) ≤ vDiscrepancy s := not_lt.mp hv
      by_cases h100 : vDiscrepancy s > 100 <;> simp [vIsValid, hv, h100, h1]

/-- Witness for the C3 amended theorem at the concrete discrepancy-21
input: the confidence drops from 90 to 70 and review is forced. -/
theorem validateInvoice_validation_semantics_witness :
    (¬ (validateCexState.invoice = none ∧ validateCexState.extraction = none)) ∧
    ((validateInvoice validateCexState (some validateCexDecision)).validationDecision.map
      (·.confidence)) = some 70 ∧
    ((validateInvoice validateCexState (some validateCexDecision)).validationDecision.map
      (·.requiresReview)) = some true := by
  have hne : ¬ (validateCexState.invoice = none ∧ validateCexState.extraction = none) := by
    simp [validateCexState]
  have h := validateInvoice_validation_semantics validateCexState validateCexDecision hne
  have h21 : vDiscrepancy validateCexState = 21 := by
    simp [vDiscrepancy, vTaxAmount, vExpectedTax, vAmountIncl, vAmountExcl,
      validateCexState, validateCexInvoice, jsAbs]
    norm_num
  refine ⟨hne, ?_, ?_⟩
  · rw [h.1, h21]
    norm_num [validateCexDecision]
  · rw [h.2, h21]
    norm_num [validateCexDecision]

/-! ### Routing after the completeness check (src/agent/graph.ts) -/

/-- Targets of the conditional edge leaving checkCompleteness. -/
inductive RouteTarget where
  | scanInvoicePdf | resolveContact | alert
deriving DecidableEq, Repr

/-- The missing required fields computed by routeAfterCompleteness
(graph.ts lines 49-54), in source order. -/
def routeMissingFields (invoice : MoneybirdInvoice) : List String :=
  (if strTruthy invoice.contact_id = false ∧ invoice.contact = none
    then ["contact"] else []) ++
  (if numTruthy invoice.total_price_excl_tax = false ∨
      invoice.total_price_excl_tax = some 0
    then ["amount_excl_tax"] else []) ++
  (if numTruthy invoice.total_price_incl_tax = false ∨
      invoice.total_price_incl_tax = some 0
    then ["amount_incl_tax"] else []) ++
  (if invoice.tax = none ∧ invoice.tax ≠ some 0 then ["tax"] else []) ++
  (if invoice.invoice_date = none then ["invoice_date"] else [])

/-- The routing decision after the completeness check (graph.ts lines
28-69): alert on error or missing invoice, document extraction when any
required field is missing, contact resolution otherwise. -/
def routeAfterCompleteness (s : AgentState) : RouteTarget :=
  if strTruthy s.error then .alert
  else
    match s.invoice with
    | none => .alert
    | some invoice =>
      if routeMissingFields invoice ≠ [] then .scanInvoicePdf
      else .resolveContact

/-- C10: with no error and an invoice present, an absent or zero excl-tax
or incl-tax amount routes to document extraction; the tax field counts as
missing exactly when it is undefined, so a zero tax is treated as present
and, when every other required field is present, a zero tax alone still
routes to contact resolution. -/
theorem routeAfterCompleteness_zero_semantics (s : AgentState)
    (inv : MoneybirdInvoice)
    (herr : strTruthy s.error = false) (hinv : s.invoice = some inv) :
    ((inv.total_price_excl_tax = none ∨ inv.total_price_excl_tax = some 0 ∨
      inv.total_price_incl_tax = none ∨ inv.total_price_incl_tax = some 0) →
      routeAfterCompleteness s = RouteTarget.scanInvoicePdf) ∧
    ("tax" ∈ routeMissingFields inv ↔ inv.tax = none) ∧
    ((strTruthy inv.contact_id = true ∨ inv.contact ≠ none) →
      numTruthy inv.total_price_excl_tax = true →
      numTruthy inv.total_price_incl_tax = true →
      inv.invoice_date ≠ none → inv.tax = some 0 →
      routeAfterCompleteness s = RouteTarget.resolveContact) := by
  refine ⟨?_, ?_, ?_⟩
  · intro hzero
    have hmiss : routeMissingFields inv ≠ [] := by
      unfold routeMissingFields
      rcases hzero with h | h | h | h <;>
        · simp only [h, numTruthy]
          split_ifs <;> simp_all
    simp [routeAfterCompleteness, herr, hinv, hmiss]
  · unfold routeMissingFields
    split_ifs <;> simp_all
  · intro hcontact hexcl hincl hdate htax
    have hmiss : routeMissingFields inv = [] := by
      unfold routeMissingFields
      have hc : ¬ (strTruthy inv.contact_id = false ∧ inv.contact = none) := by
        rcases hcontact with h | h <;> simp [h]
      have he : ¬ (numTruthy inv.total_price_excl_tax = false ∨
          inv.total_price_excl_tax = some 0) := by
        rintro (h | h)
        · rw [hexcl] at h; exact Bool.noConfusion h
        · rw [h] at hexcl; simp [numTruthy] at hexcl
      have hi : ¬ (numTruthy inv.total_price_incl_tax = false ∨
          inv.total_price_incl_tax = some 0) := by
        rintro (h | h)
        · rw [hincl] at h; exact Bool.noConfusion h
        · rw [h] at hincl; simp [numTruthy] at hincl
      have ht : ¬ (inv.tax = none ∧ inv.tax ≠ some 0) := by
        rintro ⟨h, -⟩; rw [htax] at h; exact Option.noConfusion h
      simp [hc, he, hi, ht, hdate]
    simp [routeAfterCompleteness, herr, hinv, hmiss]

/-- Concrete invoice with zero amounts for the C10 witness. -/
def routeCexInvoice : MoneybirdInvoice :=
  { id := "inv2", contact_id := some "c1",
    total_price_excl_tax := some 0, total_price_incl_tax := some 0,
    tax := some 0, invoice_date := some 20000 }

/-- Witness for C10: a state carrying an invoice with zero amounts and no
error is routed to document extraction, and its tax field, being 0 rather
than undefined, is not among the missing fields. -/
theorem routeAfterCompleteness_zero_semantics_witness :
    strTruthy (AgentState.error { invoice := some routeCexInvoice }) = false ∧
    routeAfterCompleteness { invoice := some routeCexInvoice }
      = RouteTarget.scanInvoicePdf ∧
    ¬ ("tax" ∈ routeMissingFields routeCexInvoice) := by
  have herr : strTruthy (AgentState.error { invoice := some routeCexInvoice }) = false := rfl
  have h := routeAfterCompleteness_zero_semantics
    { invoice := some routeCexInvoice } routeCexInvoice herr rfl
  refine ⟨herr, h.1 (Or.inr (Or.inl rfl)), ?_⟩
  rw [h.2.1]
  simp [routeCexInvoice]

/-! ### Transaction matcher (src/agent/nodes/matchTransactions.ts) -/

/-- Decision returned by the transaction-matching language-model call,
including the optional matched transaction id. -/
structure TxMatchDecision where
  matched_transaction_id : Option String := none
  confidence : ℚ
  reasoning : String
  requiresReview : Bool
deriving DecidableEq, Repr

/-- The amount filter of matchTransactions (lines 56-60): keep
transactions whose amount differs from the tax-inclusive invoice amount
by less than 1 percent of that amount.  With the invoice amount
undefined the JavaScript comparison against NaN is false for every
transaction. -/
def txAmountFilter (invoiceAmount : Option ℚ) (t : MoneybirdTransaction) : Bool :=
  match invoiceAmount with
  | none => false
  | some a => decide (jsAbs (t.amount - a) < a * (1/100))

/-- The candidate transactions of matchTransactions (lines 45-60): the
transactions listed for the 30-day window either side of the invoice
date, filtered by amount.  listTransactions is the platform listing
call, taking the from and to dates. -/
def txCandidates (listTransactions : ℤ → ℤ → List MoneybirdTransaction)
    (invoiceDate : ℤ) (invoiceAmount : Option ℚ) : List MoneybirdTransaction :=
  (listTransactions (invoiceDate - 30) (invoiceDate + 30)).filter
    (txAmountFilter invoiceAmount)

/-- The matchTransactions node.  llm is the outcome of the
language-model call with JSON parsing (none when it throws or yields no
JSON). -/
def matchTransactions (s : AgentState)
    (listTransactions : ℤ → ℤ → List MoneybirdTransaction)
    (llm : Option TxMatchDecision) : StateUpdate :=
  match s.invoice with
  | none =>
    { error := some "No invoice available", currentNode := some "matchTransactions" }
  | some invoice =>
    match invoice.invoice_date with
    | none =>
      { error := some "Invoice date missing", currentNode := some "matchTransactions" }
    | some d =>
      let candidates := txCandidates listTransactions d invoice.total_price_incl_tax
      if candidates = [] then
        { currentNode := some "matchTransactions",
          matchDecision := some
            { confidence := 0,
              reasoning := "No transactions found matching invoice amount",
              requiresReview := true } }
      else
        match llm with
        | none =>
          { error := some "No JSON found in LLM response",
            currentNode := some "matchTransactions" }
        | some dec =>
          let matched :=
            if strTruthy dec.matched_transaction_id then
              candidates.find? (fun t => t.id == dec.matched_transaction_id.getD "")
            else none
          { currentNode := some "matchTransactions",
            matchedTransaction := matched,
            matchDecision := some
              { confidence := dec.confidence,
                reasoning := dec.reasoning,
                requiresReview := dec.requiresReview || matched.isNone } }

/-- C7: with an invoice date present, the candidate set is exactly the
transactions listed in the 30-day window either side of the invoice date
whose amount is within 1 percent of the tax-inclusive amount; and when
that set is empty the node returns the zero-confidence
review-required Decision Record for every language-model oracle, never
consulting it. -/
theorem matchTransactions_candidate_policy (s : AgentState)
    (inv : MoneybirdInvoice) (f : ℤ → ℤ → List MoneybirdTransaction)
    (d0 : ℤ) (a : ℚ)
    (hinv : s.invoice = some inv) (hdate : inv.invoice_date = some d0)
    (hamt : inv.total_price_incl_tax = some a) :
    (∀ t, t ∈ txCandidates f d0 (some a) ↔
        t ∈ f (d0 - 30) (d0 + 30) ∧ jsAbs (t.amount - a) < a * (1/100)) ∧
    (txCandidates f d0 (some a) = [] →
      ∀ llm, matchTransactions s f llm =
        { currentNode := some "matchTransactions",
          matchDecision := some
            { confidence := 0,
              reasoning := "No transactions found matching invoice amount",
              requiresReview := true } }) := by
  constructor
  · intro t
    simp [txCandidates, List.mem_filter, txAmountFilter]
  · intro hempty llm
    simp only [matchTransactions, hinv, hdate, hamt]
    rw [if_pos hempty]

/-- Concrete matcher invoice: date day 100, incl-tax amount 1000. -/
def matchCexInvoice : MoneybirdInvoice :=
  { id := "inv3", invoice_date := some 100, total_price_incl_tax := some 1000 }

/-- Concrete listing whose only transaction misses the invoice amount by
far more than 1 percent. -/
def matchCexList : ℤ → ℤ → List MoneybirdTransaction :=
  fun _ _ => [{ id := "t1", date := 100, amount := 5000 }]

/-- Witness for C7: with the far-off transaction the candidate set is
empty and the node returns the zero-confidence review decision without
using the model. -/
theorem matchTransactions_candidate_policy_witness :
    txCandidates matchCexList 100 (some 1000) = [] ∧
    matchTransactions { invoice := some matchCexInvoice } matchCexList
        (some { matched_transaction_id := some "t1", confidence := 100,
                reasoning := "x", requiresReview := false }) =
      { currentNode := some "matchTransactions",
        matchDecision := some
          { confidence := 0,
            reasoning := "No transactions found matching invoice amount",
            requiresReview := true } } := by
  have hempty : txCandidates matchCexList 100 (some 1000) = [] := by
    norm_num [txCandidates, matchCexList, txAmountFilter, jsAbs, List.filter]
  have h := matchTransactions_candidate_policy { invoice := some matchCexInvoice }
    matchCexInvoice matchCexList 100 1000 rfl rfl rfl
  exact ⟨hempty, h.2 hempty _⟩

/-! ### Alert terminal node (src/agent/nodes/alert.ts) -/

/-- Outcome of the alert node: the returned partial update and whether a
human-facing notification was dispatched through sendErrorAlert. -/
structure AlertResult where
  update : StateUpdate
  notified : Bool
deriving DecidableEq, Repr

/-- The review reasons collected by alert (lines 60-66). -/
def alertReasons (s : AgentState) : List String :=
  (if s.isNewContact then ["new_supplier"] else []) ++
  (if (s.contactMatchDecision.map (·.requiresReview)).getD false then
    ["contact_match_low_confidence"] else []) ++
  (if (s.validationDecision.map (·.requiresReview)).getD false then
    ["validation_issue"] else []) ++
  (if (s.kostenpostDecision.map (·.requiresReview)).getD false then
    ["kostenpost_classification_uncertain"] else []) ++
  (if (s.matchDecision.map (·.requiresReview)).getD false then
    ["transaction_match_uncertain"] else [])

/-- The alert node.  now is the clock reading for
processingCompletedAt; dbErr is some message when one of the database
calls inside the try block (logProcessing, markInvoiceProcessed) throws,
which the catch block turns into an error update (lines 126-132);
sendErrorAlert itself is dispatched fire-and-forget and cannot fail the
node. -/
def alertNode (s : AgentState) (now : String) (dbErr : Option String) : AlertResult :=
  if s.invoice = none ∧ s.error = none then
    { update :=
        { currentNode := some "alert", processingCompletedAt := some now,
          contact := s.contact, extraction := s.extraction },
      notified := false }
  else
    match s.invoice with
    | none =>
      { update :=
          { error := some "No invoice available or invoice ID missing",
            currentNode := some "alert" },
        notified := false }
    | some invoice =>
      if invoice.id.isEmpty then
        { update :=
            { error := some "No invoice available or invoice ID missing",
              currentNode := some "alert" },
          notified := false }
      else
        match dbErr with
        | some msg =>
          { update :=
              { error := some msg, currentNode := some "alert",
                invoice := some invoice },
            notified := false }
        | none =>
          let reasons := alertReasons s
          let requiresHumanIntervention :=
            s.action = some GateAction.alert_user ∨
            s.action = some GateAction.flag_review ∨
            s.error ≠ none ∨ reasons ≠ []
          { update :=
              { currentNode := some "alert", processingCompletedAt := some now,
                invoice := some invoice, contact := s.contact,
                extraction := s.extraction, kostenpostId := s.kostenpostId,
                matchedTransaction := s.matchedTransaction,
                overallConfidence := s.overallConfidence, action := s.action,
                contactMatchDecision := s.contactMatchDecision,
                validationDecision := s.validationDecision,
                kostenpostDecision := s.kostenpostDecision,
                matchDecision := s.matchDecision },
            notified := decide requiresHumanIntervention }

/-- C8: entered with no invoice, the alert node dispatches no
notification and, in the nothing-to-process case where no error is set
either, completes without recording any error. -/
theorem alert_tolerates_missing_invoice (s : AgentState) (now : String)
    (dbErr : Option String) (hinv : s.invoice = none) :
    (alertNode s now dbErr).notified = false ∧
    (s.error = none → (alertNode s now dbErr).update.error = none) := by
  cases herr : s.error with
  | none => simp [alertNode, hinv, herr]
  | some e => simp [alertNode, hinv, herr]

/-- Witness for C8 on the empty run state: no notification, and no error
recorded. -/
theorem alert_tolerates_missing_invoice_witness :
    (alertNode {} "t0" none).notified = false ∧
    (alertNode {} "t0" none).update.error = none := by
  have h := alert_tolerates_missing_invoice {} "t0" none rfl
  exact ⟨h.1, h.2 rfl⟩

/-! ### Invoice detection (src/agent/nodes/detectNewInvoices.ts) and
run-level idempotence -/

/-- Oracle for the platform calls made by detectNewInvoices:
listPurchaseInvoices (none when it throws), getPurchaseInvoice by id
(none when it throws, in which case the list entry is used), and
getContact by id (none when it throws, in which case the invoice is used
without contact details). -/
structure DetectOracle where
  allInvoices : Option (List MoneybirdInvoice)
  getFull : String → Option MoneybirdInvoice
  contactById : String → Option MoneybirdContact

/-- The unprocessed-state filter of detectNewInvoices (lines 29-32):
keep invoices in lifecycle state new or draft. -/
def unprocessedStateFilter (i : MoneybirdInvoice) : Bool :=
  decide (i.state = InvoiceState.new) || decide (i.state = InvoiceState.draft)

/-- The two detection filters (lines 29-57): the lifecycle-state filter
followed by the idempotency filter against the processed-invoices
table. -/
def unprocessedInvoicesOf (processed : String → Bool)
    (l : List MoneybirdInvoice) : List MoneybirdInvoice :=
  (l.filter unprocessedStateFilter).filter (fun i => !processed i.id)

/-- The contact-detail enrichment of the selected invoice (lines 87-95):
when the invoice has a truthy contact_id and the contact fetch succeeds,
attach the contact; any fetch failure is swallowed. -/
def detectEnrich (o : DetectOracle) (b : MoneybirdInvoice) : MoneybirdInvoice :=
  if strTruthy b.contact_id then
    match o.contactById (b.contact_id.getD "") with
    | some c => { b with contact := some c }
    | none => b
  else b

/-- Selection of the invoice to process (lines 67-95): the head of the
filtered list, replaced by its full fetch when that call succeeds and
enriched with contact details. -/
def detectSelect (processed : String → Bool) (o : DetectOracle)
    (l : List MoneybirdInvoice) : Option MoneybirdInvoice :=
  match unprocessedInvoicesOf processed l with
  | [] => none
  | invoiceToProcess :: _ =>
    some (detectEnrich o ((o.getFull invoiceToProcess.id).getD invoiceToProcess))

/-- The detectNewInvoices node: select the first unprocessed invoice and
return it; with no unprocessed invoice return only the node marker, and
with the listing call failing return the caught error. -/
def detectNewInvoices (processed : String → Bool) (o : DetectOracle) : StateUpdate :=
  match o.allInvoices with
  | none =>
    { currentNode := some "detectNewInvoices",
      error := some "Unknown error in detectNewInvoices" }
  | some allInvoices =>
    match detectSelect processed o allInvoices with
    | none => { currentNode := some "detectNewInvoices" }
    | some fullInvoice =>
      { currentNode := some "detectNewInvoices", invoice := some fullInvoice }

theorem detectEnrich_id (o : DetectOracle) (b : MoneybirdInvoice) :
    (detectEnrich o b).id = b.id := by
  unfold detectEnrich
  split
  · split <;> rfl
  · rfl

theorem detectSelect_unprocessed (processed : String → Bool) (o : DetectOracle)
    (l : List MoneybirdInvoice) (inv : MoneybirdInvoice)
    (hfull : ∀ i full, o.getFull i = some full → full.id = i)
    (hsel : detectSelect processed o l = some inv) :
    processed inv.id = false := by
  unfold detectSelect at hsel
  cases hl : unprocessedInvoicesOf processed l with
  | nil => rw [hl] at hsel; exact Option.noConfusion hsel
  | cons hd tl =>
    rw [hl] at hsel
    have hinv : inv = detectEnrich o ((o.getFull hd.id).getD hd) :=
      (Option.some.injEq _ _ ▸ hsel).symm
    have hid : inv.id = hd.id := by
      rw [hinv, detectEnrich_id]
      cases hg : o.getFull hd.id with
      | none => rfl
      | some full => simpa using hfull hd.id full hg
    have hmem : hd ∈ (l.filter unprocessedStateFilter).filter
        (fun i => !processed i.id) := by
      have : hd ∈ unprocessedInvoicesOf processed l := by
        rw [hl]; exact List.mem_cons_self hd tl
      simpa [unprocessedInvoicesOf] using this
    have hproc := (List.mem_filter.mp hmem).2
    rw [hid]
    simpa using hproc

/-- Targets of the conditional edge leaving detectNewInvoices
(graph.ts, routeAfterDetectInvoices). -/
inductive DetectRoute where
  | checkCompleteness | alert
deriving DecidableEq, Repr

/-- Routing after detection (graph.ts lines 136-157): alert on error or
when no invoice was found, otherwise the completeness check. -/
def routeAfterDetectInvoices (s : AgentState) : DetectRoute :=
  if strTruthy s.error then .alert
  else if s.invoice = none then .alert
  else .checkCompleteness

/-- The purchase-invoice ids targeted by platform update and delete
calls during one run.  Every updatePurchaseInvoice and
deletePurchaseInvoice call in the pipeline passes the id of the invoice
held in the Workflow State (classifyKostenpost.ts lines 506, 538, 553,
557 and 638 inside resolveContact, and autoBook line 134); that invoice
is the one selected at detection — checkCompleteness returns no invoice
field and scanInvoicePdf spreads the existing invoice, preserving its id
— until resolveContact possibly replaces it with the invoice newly
created by its 422 fallback (line 622), whose id the platform assigns
fresh.  selected is the id of the invoice chosen at detection;
replacement is the id of the fallback-created invoice when that path
ran. -/
def runWriteIds (selected : Option String) (replacement : Option String) :
    List String :=
  match selected with
  | none => []
  | some sid => sid :: replacement.toList

/-- C4: an invoice id recorded in the processed-invoices table is
filtered out at detection, so a second run never selects it and no
platform write of that run targets it (the replacement id, when the 422
fallback runs, is freshly assigned and hence also unprocessed). -/
theorem processed_invoice_never_rewritten (processed : String → Bool)
    (o : DetectOracle) (x : String) (replacement : Option String)
    (hx : processed x = true)
    (hfull : ∀ i inv, o.getFull i = some inv → inv.id = i)
    (hfresh : ∀ rid, replacement = some rid → processed rid = false) :
    (∀ inv, (detectNewInvoices processed o).invoice = some inv → inv.id ≠ x) ∧
    x ∉ runWriteIds ((detectNewInvoices processed o).invoice.map (·.id))
        replacement := by
  have hsel : ∀ inv, (detectNewInvoices processed o).invoice = some inv →
      processed inv.id = false := by
    intro inv hinv
    cases hall : o.allInvoices with
    | none => simp [detectNewInvoices, hall] at hinv
    | some l =>
      cases hl : detectSelect processed o l with
      | none => simp [detectNewInvoices, hall, hl] at hinv
      | some full =>
        have : full = inv := by
          simpa [detectNewInvoices, hall, hl] using hinv
        exact this ▸ detectSelect_unprocessed processed o l full hfull hl
  constructor
  · intro inv hinv heq
    have := hsel inv hinv
    rw [heq, hx] at this
    exact Bool.noConfusion this
  · intro hmem
    cases hout : (detectNewInvoices processed o).invoice with
    | none => rw [hout] at hmem; simp [runWriteIds] at hmem
    | some inv =>
      rw [hout] at hmem
      have hmem' : x = inv.id ∨ x ∈ replacement.toList := by
        simpa [runWriteIds] using hmem
      rcases hmem' with h | h
      · have hfalse := hsel inv hout
        rw [← h, hx] at hfalse
        exact Bool.noConfusion hfalse
      · rcases replacement with _ | rid
        · simp at h
        · have hr : x = rid := by simpa using h
          have hfalse := hfresh rid rfl
          rw [← hr, hx] at hfalse
          exact Bool.noConfusion hfalse

/-- Concrete detection oracle for the C4 witness: the platform lists one
invoice in state new whose id is already in the processed table. -/
def detectCexOracle : DetectOracle :=
  { allInvoices := some [{ id := "invX", state := InvoiceState.new }],
    getFull := fun _ => none,
    contactById := fun _ => none }

/-- Witness for C4: with invoice invX already processed, the second run
selects nothing and its platform-write id set is empty. -/
theorem processed_invoice_never_rewritten_witness :
    (fun id => id == "invX") "invX" = true ∧
    (detectNewInvoices (fun id => id == "invX") detectCexOracle).invoice = none ∧
    ¬ ("invX" ∈ runWriteIds
        ((detectNewInvoices (fun id => id == "invX") detectCexOracle).invoice.map
          (·.id)) none) := by
  have h := processed_invoice_never_rewritten (fun id => id == "invX")
    detectCexOracle "invX" none rfl
    (by intro i inv hinv; exact absurd hinv (by simp [detectCexOracle]))
    (by intro rid hrid; exact absurd hrid (by simp))
  refine ⟨rfl, ?_, h.2⟩
  rfl

/-! ### Contact resolver (resolveContact, second section of
src/agent/nodes/classifyKostenpost.ts) -/

/-- Decision shape used by the contact resolver, including the optional
matched contact id. -/
structure ContactMatchDecision where
  matched_contact_id : Option String := none
  confidence : ℚ
  reasoning : String
  requiresReview : Bool
deriving DecidableEq, Repr

/-- JavaScript template interpolation of an optional string: undefined
interpolates as the literal text undefined. -/
def jsInterp : Option String → String
  | none => "undefined"
  | some s => s

/-- The full-name string of a contact as interpolated at line 247:
firstname, a space, lastname. -/
def contactFullName (c : MoneybirdContact) : String :=
  jsInterp c.firstname ++ " " ++ jsInterp c.lastname

/-- Containment test on character lists underlying the JavaScript
String.includes call. -/
def charsInclude (needle : List Char) : List Char → Bool
  | [] => needle.isEmpty
  | c :: cs => needle.isPrefixOf (c :: cs) || charsInclude needle cs

/-- JavaScript a.includes(b). -/
def strIncludes (a b : String) : Bool := charsInclude b.toList a.toList

/-- The exact-match predicate of lines 245-248: case-insensitive
equality of the supplier name with the company name (an undefined
company name never matches) or with the trimmed full name. -/
def isExactMatch (supplierName : String) (c : MoneybirdContact) : Bool :=
  (match c.company_name with
   | some n => strLower n == strLower supplierName
   | none => false) ||
  (strTrim (strLower (contactFullName c)) == strLower supplierName)

/-- The contact name used by the fuzzy match (line 263): the company
name when truthy, else the interpolated full name, lower-cased. -/
def fuzzyContactName (c : MoneybirdContact) : String :=
  strLower
    (match c.company_name with
     | some n => if n.isEmpty then contactFullName c else n
     | none => contactFullName c)

/-- The fuzzy-match predicate of lines 262-266: bidirectional substring
containment between the contact name and the supplier name. -/
def isFuzzyMatch (supplierName : String) (c : MoneybirdContact) : Bool :=
  strIncludes (fuzzyContactName c) (strLower supplierName) ||
  strIncludes (strLower supplierName) (fuzzyContactName c)

/-- The match decision computed by resolveContact before disposition
(lines 240-349): an exact match yields confidence 95, else a fuzzy match
yields confidence 75, else the language-model decision is used, and when
that call fails the conservative fallback decision is built (confidence
30 with no contacts listed, 50 otherwise, review required). -/
def resolveDecision (supplierName : String) (contacts : List MoneybirdContact)
    (llm : Option ContactMatchDecision) : ContactMatchDecision :=
  match contacts.find? (isExactMatch supplierName) with
  | some c =>
    { matched_contact_id := some c.id, confidence := 95,
      reasoning := "Exact name match", requiresReview := decide ((95 : ℚ) < 80) }
  | none =>
    match contacts.find? (isFuzzyMatch supplierName) with
    | some c =>
      { matched_contact_id := some c.id, confidence := 75,
        reasoning := "Fuzzy name match", requiresReview := decide ((75 : ℚ) < 80) }
    | none =>
      match llm with
      | some d => d
      | none =>
        { matched_contact_id := none,
          confidence := if contacts.isEmpty then 30 else 50,
          reasoning :=
            if contacts.isEmpty then
              "No existing contacts found, will create new contact"
            else "LLM matching failed, no clear match found",
          requiresReview := true }

/-- Input of the createContact platform call (lines 378-382): company
name from the supplier hint, bank account and tax number from the
extraction. -/
structure CreateContactInput where
  company_name : Option String
  bank_account : Option String
  tax_number : Option String
deriving DecidableEq, Repr

/-- The invoice-update section of resolveContact (lines 406-697),
abstracted to its four exits: success returns the updated invoice (line
560), replaced returns the invoice newly created by the 422 fallback
(line 665), fellThrough continues with the old invoice (final return,
line 699), and threw models an exception escaping the inner handlers to
the outer catch (line 718). -/
inductive UpdateSectionOutcome where
  | success (inv : MoneybirdInvoice)
  | replaced (inv : MoneybirdInvoice)
  | fellThrough
  | threw (msg : String)
deriving DecidableEq, Repr

/-- Oracle for the external calls of resolveContact: the contact search
result, the language-model matching call, getContact by id (none when it
throws), createContact (none when it throws, which line 391 catches and
continues without a contact), and the invoice-update section. -/
structure ResolveOracle where
  contacts : List MoneybirdContact
  llm : Option ContactMatchDecision := none
  contactById : String → Option MoneybirdContact := fun _ => none
  createContact : CreateContactInput → Option MoneybirdContact := fun _ => none
  updateSection : UpdateSectionOutcome := .fellThrough

/-- The common tail of resolveContact after disposition (lines 403-709):
run the invoice-update section when a contact, the invoice, and a
sufficiently confident extraction coexist, then return the update whose
contactMatchDecision folds isNewContact into requiresReview. -/
def resolveContactFinish (s : AgentState) (decision : ContactMatchDecision)
    (contact : Option MoneybirdContact) (isNewContact : Bool)
    (o : ResolveOracle) : StateUpdate :=
  let finalDecision : AIDecision :=
    { confidence := decision.confidence, reasoning := decision.reasoning,
      requiresReview := decision.requiresReview || isNewContact }
  if contact.isSome ∧ s.invoice.isSome ∧ s.extraction.isSome ∧
      ((s.extraction.map (·.confidence)).getD 0) ≥ 70 then
    match o.updateSection with
    | .success inv =>
      { currentNode := some "resolveContact", contact := contact,
        invoice := some inv, contactMatchDecision := some finalDecision,
        isNewContact := some isNewContact }
    | .replaced inv =>
      { currentNode := some "resolveContact", contact := contact,
        invoice := some inv, contactMatchDecision := some finalDecision,
        isNewContact := some isNewContact }
    | .fellThrough =>
      { currentNode := some "resolveContact", contact := contact,
        invoice := s.invoice, contactMatchDecision := some finalDecision,
        isNewContact := some isNewContact }
    | .threw msg =>
      { error := some msg, currentNode := some "resolveContact" }
  else
    { currentNode := some "resolveContact", contact := contact,
      invoice := s.invoice, contactMatchDecision := some finalDecision,
      isNewContact := some isNewContact }

/-- The resolveContact node.  supplierName is the supplier hint after
the derivation of lines 170-220 (extraction supplier name, invoice
contact company name, or the filename and reference heuristics); the
node errors when it is absent (lines 222-233). -/
def resolveContact (s : AgentState) (supplierName : Option String)
    (o : ResolveOracle) : StateUpdate :=
  if s.invoice = none ∧ s.extraction = none then
    { error := some "No invoice or extraction data available",
      currentNode := some "resolveContact" }
  else if strTruthy supplierName = false then
    { error := some "No supplier name available",
      currentNode := some "resolveContact" }
  else
    let name := supplierName.getD ""
    let supplierIban := s.extraction.bind (·.supplier_iban)
    let supplierVat := s.extraction.bind (·.supplier_vat)
    let decision := resolveDecision name o.contacts o.llm
    if strTruthy decision.matched_contact_id ∧ decision.confidence ≥ 80 then
      match o.contactById (decision.matched_contact_id.getD "") with
      | none =>
        { error := some "getContact failed", currentNode := some "resolveContact" }
      | some contact =>
        resolveContactFinish s decision (some contact) false o
    else
      match o.createContact
          { company_name := some name, bank_account := supplierIban,
            tax_number := supplierVat } with
      | some contact => resolveContactFinish s decision (some contact) true o
      | none => resolveContactFinish s decision none false o

theorem resolveContactFinish_fields (s : AgentState)
    (decision : ContactMatchDecision) (contact : Option MoneybirdContact)
    (isNew : Bool) (o : ResolveOracle)
    (hthrow : ∀ msg, o.updateSection ≠ .threw msg) :
    (resolveContactFinish s decision contact isNew o).contact = contact ∧
    (resolveContactFinish s decision contact isNew o).isNewContact = some isNew := by
  unfold resolveContactFinish
  split
  · cases hupd : o.updateSection with
    | success inv => exact ⟨rfl, rfl⟩
    | replaced inv => exact ⟨rfl, rfl⟩
    | fellThrough => exact ⟨rfl, rfl⟩
    | threw msg => exact absurd hupd (hthrow msg)
  · exact ⟨rfl, rfl⟩

/-- C6: a match decision with confidence below 80 — as produced in
particular by the bidirectional substring match, whose confidence is
75 — leads to creating a new contact from the supplier hint with
isNewContact set true; a contact is carried with isNewContact false only
when the decision confidence is at least 80. -/
theorem resolveContact_low_confidence_creates (s : AgentState) (name : String)
    (o : ResolveOracle)
    (hne : ¬ (s.invoice = none ∧ s.extraction = none))
    (hname : strTruthy (some name) = true)
    (hthrow : ∀ msg, o.updateSection ≠ .threw msg) :
    ((resolveDecision name o.contacts o.llm).confidence < 80 →
      ∀ c, o.createContact
          { company_name := some name,
            bank_account := s.extraction.bind (·.supplier_iban),
            tax_number := s.extraction.bind (·.supplier_vat) } = some c →
        (resolveContact s (some name) o).contact = some c ∧
        (resolveContact s (some name) o).isNewContact = some true) ∧
    (∀ c, (resolveContact s (some name) o).contact = some c →
      (resolveContact s (some name) o).isNewContact = some false →
      80 ≤ (resolveDecision name o.contacts o.llm).confidence) ∧
    (o.contacts.find? (isExactMatch name) = none →
      (∃ c₀, o.contacts.find? (isFuzzyMatch name) = some c₀) →
      (resolveDecision name o.contacts o.llm).confidence = 75) := by
  have hstep : resolveContact s (some name) o =
      (let decision := resolveDecision name o.contacts o.llm
       if strTruthy decision.matched_contact_id ∧ decision.confidence ≥ 80 then
        match o.contactById (decision.matched_contact_id.getD "") with
        | none =>
          { error := some "getContact failed", currentNode := some "resolveContact" }
        | some contact => resolveContactFinish s decision (some contact) false o
       else
        match o.createContact
            { company_name := some name,
              bank_account := s.extraction.bind (·.supplier_iban),
              tax_number := s.extraction.bind (·.supplier_vat) } with
        | some contact => resolveContactFinish s decision (some contact) true o
        | none => resolveContactFinish s decision none false o) := by
    unfold resolveContact
    rw [if_neg hne, if_neg (by rw [hname]; exact fun h => Bool.noConfusion h)]
    rfl
  refine ⟨?_, ?_, ?_⟩
  · intro hlow c hc
    rw [hstep]
    simp only
    rw [if_neg (by rintro ⟨-, hge⟩; linarith), hc]
    exact resolveContactFinish_fields s _ (some c) true o hthrow
  · intro c hcontact hnew
    rw [hstep] at hcontact hnew
    simp only at hcontact hnew
    by_cases hcond : strTruthy (resolveDecision name o.contacts o.llm).matched_contact_id = true ∧
        (resolveDecision name o.contacts o.llm).confidence ≥ 80
    · exact hcond.2
    · rw [if_neg hcond] at hcontact hnew
      cases hcc : o.createContact
          { company_name := some name,
            bank_account := s.extraction.bind (·.supplier_iban),
            tax_number := s.extraction.bind (·.supplier_vat) } with
      | some created =>
        rw [hcc] at hnew
        have hnew' : (resolveContactFinish s (resolveDecision name o.contacts o.llm)
            (some created) true o).isNewContact = some false := hnew
        rw [(resolveContactFinish_fields s (resolveDecision name o.contacts o.llm)
          (some created) true o hthrow).2] at hnew'
        simp at hnew'
      | none =>
        rw [hcc] at hcontact
        have hcontact' : (resolveContactFinish s (resolveDecision name o.contacts o.llm)
            none false o).contact = some c := hcontact
        rw [(resolveContactFinish_fields s (resolveDecision name o.contacts o.llm)
          none false o hthrow).1] at hcontact'
        exact Option.noConfusion hcontact'
  · intro hex ⟨c₀, hfz⟩
    simp [resolveDecision, hex, hfz]

/-- Concrete contact for the C6 witness: matched only by substring
containment against the supplier hint acme. -/
def resolveCexContact : MoneybirdContact :=
  { id := "c1", company_name := some "Acme BV" }

/-- Concrete resolver oracle for the C6 witness: one fuzzy-matching
contact, a failing model call, and a succeeding contact creation echoing
its input. -/
def resolveCexOracle : ResolveOracle :=
  { contacts := [resolveCexContact], llm := none,
    contactById := fun _ => none,
    createContact := fun inp =>
      some { id := "new1", company_name := inp.company_name,
             bank_account := inp.bank_account, tax_number := inp.tax_number },
    updateSection := .fellThrough }

/-- Concrete resolver state for the C6 witness. -/
def resolveCexState : AgentState := { invoice := some { id := "invA" } }

/-- Witness for C6: the fuzzy match yields confidence 75, which is below
80, so a contact is created from the hint and isNewContact is true. -/
theorem resolveContact_low_confidence_creates_witness :
    (resolveDecision "acme" resolveCexOracle.contacts resolveCexOracle.llm).confidence
      = 75 ∧
    (resolveContact resolveCexState (some "acme") resolveCexOracle).contact =
      some { id := "new1", company_name := some "acme",
             bank_account := none, tax_number := none } ∧
    (resolveContact resolveCexState (some "acme") resolveCexOracle).isNewContact =
      some true := by
  have h := resolveContact_low_confidence_creates resolveCexState "acme"
    resolveCexOracle
    (by simp [resolveCexState])
    rfl
    (by intro msg hmsg; simp [resolveCexOracle] at hmsg)
  have hconf : (resolveDecision "acme" resolveCexOracle.contacts
      resolveCexOracle.llm).confidence = 75 := by
    have hex : resolveCexOracle.contacts.find? (isExactMatch "acme") = none := by
      rfl
    have hfz : resolveCexOracle.contacts.find? (isFuzzyMatch "acme") =
        some resolveCexContact := by
      rfl
    exact h.2.2 hex ⟨resolveCexContact, hfz⟩
  have hcreate : resolveCexOracle.createContact
      { company_name := some "acme",
        bank_account := resolveCexState.extraction.bind (·.supplier_iban),
        tax_number := resolveCexState.extraction.bind (·.supplier_vat) } =
      some { id := "new1", company_name := some "acme",
             bank_account := none, tax_number := none } := rfl
  have hc := h.1 (by rw [hconf]; norm_num) _ hcreate
  exact ⟨hconf, hc.1, hc.2⟩

/-! ### The remaining nodes, as update shapes (checkCompleteness from
the CheckInvoiceCompleteness source, scanInvoicePdf from the
ScanInvoicePdf source, classifyKostenpost from classifyKostenpost.ts,
autoBook from the AutoBookDraft source) -/

/-- The checkCompleteness node: an error update when no invoice is in
state, otherwise only the node marker (missing fields are logged, not
returned). -/
def checkCompleteness (s : AgentState) : StateUpdate :=
  if s.invoice = none then
    { error := some "No invoice in state", currentNode := some "checkCompleteness" }
  else { currentNode := some "checkCompleteness" }

/-- The invoice fields written by scanInvoicePdf into its invoice spread
(ScanInvoicePdf source, lines 896-925): amounts in cents, date,
reference, notes.  The id is not among them. -/
structure ScannedInvoiceFields where
  total_price_excl_tax : Option ℚ := none
  total_price_incl_tax : Option ℚ := none
  tax : Option ℚ := none
  invoice_date : Option ℤ := none
  reference : Option String := none
  notes : Option String := none
deriving DecidableEq, Repr

/-- The JavaScript object spread building the enriched invoice of the
scanInvoicePdf success return: fields present in the update replace the
invoice fields; the id is untouched. -/
def spreadInvoice (inv : MoneybirdInvoice) (u : ScannedInvoiceFields) :
    MoneybirdInvoice :=
  { inv with
    total_price_excl_tax := u.total_price_excl_tax.or inv.total_price_excl_tax,
    total_price_incl_tax := u.total_price_incl_tax.or inv.total_price_incl_tax,
    tax := u.tax.or inv.tax,
    invoice_date := u.invoice_date.or inv.invoice_date,
    reference := u.reference.or inv.reference,
    notes := u.notes.or inv.notes }

/-- Exits of scanInvoicePdf: the no-source error return, the success
return with extraction and enriched invoice, and the catch-all error
return. -/
inductive ScanOutcome where
  | noSource
  | extracted (pdfText : Option String) (pdfPath : Option String)
      (extraction : InvoiceExtraction) (fields : ScannedInvoiceFields)
  | failed (msg : String)

/-- The scanInvoicePdf node, by its three return shapes. -/
def scanInvoicePdf (s : AgentState) (o : ScanOutcome) : StateUpdate :=
  match o with
  | .noSource =>
    { error := some "No PDF path or attachment available",
      currentNode := some "scanInvoicePdf" }
  | .failed msg => { error := some msg, currentNode := some "scanInvoicePdf" }
  | .extracted t p ext u =>
    { currentNode := some "scanInvoicePdf", invoicePdfText := t,
      invoicePdfPath := p, extraction := some ext,
      invoice := s.invoice.map (spreadInvoice · u) }

/-- Exits of classifyKostenpost (lines 121-135): the success return
carrying the classification decision, and the catch-all error return. -/
inductive ClassifyOutcome where
  | success (kostenpostId : Option String) (dec : AIDecision)
  | failed (msg : String)

/-- The classifyKostenpost node, by its return shapes. -/
def classifyKostenpost (s : AgentState) (o : ClassifyOutcome) : StateUpdate :=
  if s.invoice = none ∧ s.extraction = none then
    { error := some "No invoice or extraction data available",
      currentNode := some "classifyKostenpost" }
  else
    match o with
    | .success kid dec =>
      { currentNode := some "classifyKostenpost", kostenpostId := kid,
        kostenpostDecision := some dec }
    | .failed msg =>
      { error := some msg, currentNode := some "classifyKostenpost" }

/-- Exits of autoBook: the success return with the updated invoice, and
the catch-all error return. -/
inductive AutoBookOutcome where
  | updated (inv : MoneybirdInvoice)
  | failed (msg : String)

/-- The autoBook node, by its return shapes. -/
def autoBook (s : AgentState) (now : String) (o : AutoBookOutcome) : StateUpdate :=
  if s.invoice = none then
    { error := some "No invoice available", currentNode := some "autoBook" }
  else if s.action ≠ some GateAction.auto_book then
    { error := some "Action is not auto_book", currentNode := some "autoBook" }
  else
    match o with
    | .updated inv =>
      { currentNode := some "autoBook", invoice := some inv,
        processingCompletedAt := some now }
    | .failed msg => { error := some msg, currentNode := some "autoBook" }

/-! ### The workflow graph and isNewContact monotonicity -/

/-- The nodes of the workflow graph (graph.ts, addNode calls). -/
inductive Node where
  | detectNewInvoices | checkCompleteness | scanInvoicePdf | resolveContact
  | validateInvoice | classifyKostenpost | matchTransactions | confidenceGate
  | autoBook | alert
deriving DecidableEq, Repr

/-- The successor nodes of each node, from the addEdge and
addConditionalEdges calls of graph.ts; terminal nodes lead to END and
have no successor. -/
def nodeSuccessors : Node → List Node
  | .detectNewInvoices => [.checkCompleteness, .alert]
  | .checkCompleteness => [.scanInvoicePdf, .resolveContact, .alert]
  | .scanInvoicePdf => [.resolveContact]
  | .resolveContact => [.validateInvoice]
  | .validateInvoice => [.classifyKostenpost]
  | .classifyKostenpost => [.matchTransactions]
  | .matchTransactions => [.confidenceGate]
  | .confidenceGate => [.autoBook, .alert]
  | .autoBook => []
  | .alert => []

/-- An execution trace of the graph from a given node: the visited nodes
paired with the partial update each returned, consecutive nodes linked
by a graph edge. -/
inductive GraphTrace : Node → List (Node × StateUpdate) → Prop where
  | single (n : Node) (u : StateUpdate) : GraphTrace n [(n, u)]
  | cons (n : Node) (u : StateUpdate) (m : Node) (l : List (Node × StateUpdate))
      (hm : m ∈ nodeSuccessors n) (hl : GraphTrace m l) :
      GraphTrace n ((n, u) :: l)

/-- Which updates a node can return on the isNewContact field: the
return statements of resolveContact are the only ones mentioning it;
every other node function in this file provably returns none there (see
the isNewContact-none lemmas below). -/
def IncOK : Node → StateUpdate → Prop
  | .resolveContact, _ => True
  | _, u => u.isNewContact = none

/-- Folding a trace of updates into the accumulated state. -/
def runState (init : AgentState) (l : List (Node × StateUpdate)) : AgentState :=
  l.foldl (fun s p => applyUpdate s p.2) init

/-- The isNewContact projection of the fold, following the reducer of
graph.ts line 104. -/
def incFold (b : Bool) (l : List (Node × StateUpdate)) : Bool :=
  l.foldl (fun b p => p.2.isNewContact.getD b) b

theorem runState_isNewContact (init : AgentState)
    (l : List (Node × StateUpdate)) :
    (runState init l).isNewContact = incFold init.isNewContact l := by
  induction l generalizing init with
  | nil => rfl
  | cons p t ih =>
    show (runState (applyUpdate init p.2) t).isNewContact = _
    rw [ih]
    rfl

theorem incFold_append (b : Bool) (x y : List (Node × StateUpdate)) :
    incFold b (x ++ y) = incFold (incFold b x) y := by
  simp [incFold, List.foldl_append]

theorem incFold_eq_true_source (b : Bool) (l : List (Node × StateUpdate))
    (h : incFold b l = true) :
    b = true ∨ ∃ p ∈ l, p.2.isNewContact = some true := by
  induction l generalizing b with
  | nil => exact Or.inl h
  | cons p t ih =>
    rcases ih (p.2.isNewContact.getD b) h with hb | ⟨q, hq, hqt⟩
    · cases hp : p.2.isNewContact with
      | none => rw [hp] at hb; exact Or.inl hb
      | some v =>
        rw [hp] at hb
        have hv : v = true := hb
        exact Or.inr ⟨p, List.mem_cons_self p t, by rw [hp, hv]⟩
    · exact Or.inr ⟨q, List.mem_cons_of_mem p hq, hqt⟩

theorem incFold_of_all_none (b : Bool) (l : List (Node × StateUpdate))
    (h : ∀ p ∈ l, p.2.isNewContact = none) : incFold b l = b := by
  induction l generalizing b with
  | nil => rfl
  | cons p t ih =>
    have hp := h p (List.mem_cons_self p t)
    show incFold (p.2.isNewContact.getD b) t = b
    rw [hp]
    exact ih b (fun q hq => h q (List.mem_cons_of_mem p hq))

/-- Nodes reachable only strictly after resolveContact in the chain. -/
def afterResolve : Node → Bool
  | .validateInvoice | .classifyKostenpost | .matchTransactions
  | .confidenceGate | .autoBook | .alert => true
  | _ => false

theorem afterResolve_closed {n m : Node} (hn : afterResolve n = true)
    (hm : m ∈ nodeSuccessors n) : afterResolve m = true := by
  cases n <;> cases m <;> revert hn hm <;> decide

/-- Number of resolveContact steps in a trace. -/
def countResolve (l : List (Node × StateUpdate)) : ℕ :=
  l.countP (fun p => decide (p.1 = Node.resolveContact))

theorem countResolve_zero_after {n : Node} {l : List (Node × StateUpdate)}
    (htr : GraphTrace n l) (hn : afterResolve n = true) :
    countResolve l = 0 := by
  induction htr with
  | single m u =>
    have : m ≠ Node.resolveContact := by cases m <;> revert hn <;> decide
    simp [countResolve, this]
  | cons m u m' t hm ht ih =>
    have h1 : m ≠ Node.resolveContact := by cases m <;> revert hn <;> decide
    have h2 := ih (afterResolve_closed hn hm)
    simp [countResolve, h1] at h2 ⊢
    exact h2

theorem countResolve_le_one {n : Node} {l : List (Node × StateUpdate)}
    (htr : GraphTrace n l) : countResolve l ≤ 1 := by
  induction htr with
  | single m u =>
    cases m <;> simp [countResolve, List.countP_cons]
  | cons m u m' t hm ht ih =>
    by_cases hres : m = Node.resolveContact
    · subst hres
      have hm' : m' = Node.validateInvoice := by
        simpa [nodeSuccessors] using hm
      have h0 : countResolve t = 0 :=
        countResolve_zero_after ht (by rw [hm']; rfl)
      have hstep : countResolve ((Node.resolveContact, u) :: t) = countResolve t + 1 := by
        simp [countResolve, List.countP_cons]
      omega
    · have hstep : countResolve ((m, u) :: t) = countResolve t := by
        simp [countResolve, List.countP_cons, hres]
      omega

/-- C5: along any execution trace of the workflow graph started at
detection, with each update constrained to what its node can return on
the isNewContact field, the accumulated flag starts false and is never
merged from true back to false: once any prefix of the run has it true,
the full run still has it true. -/
theorem isNewContact_monotone_in_run (now : String)
    (l pre suf : List (Node × StateUpdate))
    (htr : GraphTrace Node.detectNewInvoices l)
    (hok : ∀ p ∈ l, IncOK p.1 p.2)
    (hsplit : l = pre ++ suf)
    (hset : (runState (createInitialState now) pre).isNewContact = true) :
    (createInitialState now).isNewContact = false ∧
    (runState (createInitialState now) l).isNewContact = true := by
  refine ⟨rfl, ?_⟩
  rw [runState_isNewContact] at hset ⊢
  have hinit : (createInitialState now).isNewContact = false := rfl
  rw [hinit] at hset ⊢
  rw [hsplit, incFold_append, hset]
  have hsetsrc := incFold_eq_true_source false pre hset
  rcases hsetsrc with hfalse | ⟨p, hp, hpt⟩
  · exact Bool.noConfusion hfalse
  · have hpres : p.1 = Node.resolveContact := by
      by_contra hne
      have := hok p (hsplit ▸ List.mem_append_left suf hp)
      have hnone : p.2.isNewContact = none := by
        cases hpn : p.1 <;> rw [hpn] at hne this <;>
          first
          | exact absurd rfl hne
          | exact this
      rw [hnone] at hpt
      exact Option.noConfusion hpt
    have hcount : countResolve l ≤ 1 := countResolve_le_one htr
    have hpre1 : 1 ≤ countResolve pre := by
      have : p ∈ pre.filter (fun q => decide (q.1 = Node.resolveContact)) :=
        List.mem_filter.mpr ⟨hp, by simp [hpres]⟩
      have hlen := List.length_pos.mpr (List.ne_nil_of_mem this)
      simpa [countResolve, List.countP_eq_length_filter] using hlen
    have hsuf0 : countResolve suf = 0 := by
      have : countResolve pre + countResolve suf ≤ 1 := by
        simpa [countResolve, hsplit, List.countP_append] using hcount
      omega
    have hsufnone : ∀ q ∈ suf, q.2.isNewContact = none := by
      intro q hq
      have hq1 : q.1 ≠ Node.resolveContact := by
        intro hq1
        have : q ∈ suf.filter (fun r => decide (r.1 = Node.resolveContact)) :=
          List.mem_filter.mpr ⟨hq, by simp [hq1]⟩
        have hlen := List.length_pos.mpr (List.ne_nil_of_mem this)
        rw [countResolve, List.countP_eq_length_filter] at hsuf0
        omega
      have := hok q (hsplit ▸ List.mem_append_right pre hq)
      cases hqn : q.1 <;> rw [hqn] at hq1 this <;>
        first
        | exact absurd rfl hq1
        | exact this
    exact incFold_of_all_none true suf hsufnone

theorem detectNewInvoices_isNewContact_none (processed : String → Bool)
    (o : DetectOracle) : (detectNewInvoices processed o).isNewContact = none := by
  cases hall : o.allInvoices with
  | none => simp [detectNewInvoices, hall]
  | some l =>
    cases hsel : detectSelect processed o l with
    | none => simp [detectNewInvoices, hall, hsel]
    | some inv => simp [detectNewInvoices, hall, hsel]

theorem checkCompleteness_isNewContact_none (s : AgentState) :
    (checkCompleteness s).isNewContact = none := by
  unfold checkCompleteness
  split <;> rfl

theorem scanInvoicePdf_isNewContact_none (s : AgentState) (o : ScanOutcome) :
    (scanInvoicePdf s o).isNewContact = none := by
  cases o <;> rfl

theorem validateInvoice_isNewContact_none (s : AgentState)
    (llm : Option AIDecision) : (validateInvoice s llm).isNewContact = none := by
  unfold validateInvoice
  split
  · rfl
  · split <;> rfl

theorem classifyKostenpost_isNewContact_none (s : AgentState)
    (o : ClassifyOutcome) : (classifyKostenpost s o).isNewContact = none := by
  unfold classifyKostenpost
  split
  · rfl
  · split <;> rfl

theorem matchTransactions_isNewContact_none (s : AgentState)
    (f : ℤ → ℤ → List MoneybirdTransaction) (llm : Option TxMatchDecision) :
    (matchTransactions s f llm).isNewContact = none := by
  cases hs : s.invoice with
  | none => simp [matchTransactions, hs]
  | some invoice =>
    cases hd : invoice.invoice_date with
    | none => simp [matchTransactions, hs, hd]
    | some d =>
      by_cases hc : txCandidates f d invoice.total_price_incl_tax = [] <;>
        cases llm <;> simp [matchTransactions, hs, hd, hc]

theorem confidenceGateUpdate_isNewContact_none (env : Env) (s : AgentState) :
    (confidenceGateUpdate env s).isNewContact = none := rfl

theorem autoBook_isNewContact_none (s : AgentState) (now : String)
    (o : AutoBookOutcome) : (autoBook s now o).isNewContact = none := by
  unfold autoBook
  split
  · rfl
  · split
    · rfl
    · split <;> rfl

theorem alertNode_isNewContact_none (s : AgentState) (now : String)
    (dbErr : Option String) : (alertNode s now dbErr).update.isNewContact = none := by
  unfold alertNode
  split
  · rfl
  · split
    · rfl
    · split
      · rfl
      · split <;> rfl

/-- Concrete trace for the C5 witness: a full run in which
resolveContact sets isNewContact, split after the resolveContact step. -/
def c5Pre : List (Node × StateUpdate) :=
  [(.detectNewInvoices, {}), (.checkCompleteness, {}),
   (.resolveContact, { isNewContact := some true })]

/-- The suffix of the concrete C5 trace. -/
def c5Suf : List (Node × StateUpdate) :=
  [(.validateInvoice, {}), (.classifyKostenpost, {}),
   (.matchTransactions, {}), (.confidenceGate, {}), (.alert, {})]

/-- Witness for C5 on the concrete trace: the flag is false at run
start, true after the prefix, and still true at run end. -/
theorem isNewContact_monotone_in_run_witness :
    (createInitialState "t0").isNewContact = false ∧
    (runState (createInitialState "t0") c5Pre).isNewContact = true ∧
    (runState (createInitialState "t0") (c5Pre ++ c5Suf)).isNewContact = true := by
  have htr : GraphTrace Node.detectNewInvoices (c5Pre ++ c5Suf) := by
    refine GraphTrace.cons _ _ _ _ ?_ (GraphTrace.cons _ _ _ _ ?_
      (GraphTrace.cons _ _ _ _ ?_ (GraphTrace.cons _ _ _ _ ?_
      (GraphTrace.cons _ _ _ _ ?_ (GraphTrace.cons _ _ _ _ ?_
      (GraphTrace.cons _ _ _ _ ?_ (GraphTrace.single _ _))))))) <;>
      simp [nodeSuccessors]
  have hok : ∀ p ∈ c5Pre ++ c5Suf, IncOK p.1 p.2 := by
    intro p hp
    fin_cases hp <;> trivial
  have hset : (runState (createInitialState "t0") c5Pre).isNewContact = true := rfl
  have h := isNewContact_monotone_in_run "t0" (c5Pre ++ c5Suf) c5Pre c5Suf
    htr hok rfl hset
  exact ⟨h.1, hset, h.2⟩

/-! ### Supplier to category memory store (src/storage/learning.ts,
recordKostenpostMapping, over the supplier_kostenpost_mappings table of
src/storage/db.ts) -/

/-- One row of the supplier_kostenpost_mappings table
(db.ts lines 66-78). -/
structure MappingRecord where
  id : ℕ
  supplier_name : String
  supplier_iban : Option String := none
  supplier_vat : Option String := none
  kostenpost_id : String
  kostenpost_name : String
  confidence : ℚ := 1
  usage_count : ℕ := 1
deriving DecidableEq, Repr

/-- The table together with its autoincrement counter. -/
structure MappingStore where
  rows : List MappingRecord
  nextId : ℕ
deriving DecidableEq, Repr

/-- Parameters of recordKostenpostMapping (learning.ts lines 62-69). -/
structure RecordParams where
  supplier_name : String
  supplier_iban : Option String := none
  supplier_vat : Option String := none
  kostenpost_id : String
  kostenpost_name : String
  confidence : Option ℚ := none
deriving DecidableEq, Repr

/-- The key predicate shared by the SELECT of recordKostenpostMapping
(lines 73-76) and the UNIQUE (supplier_name, kostenpost_id) constraint
(db.ts line 77). -/
def keyMatches (name kid : String) (r : MappingRecord) : Bool :=
  r.supplier_name == name && r.kostenpost_id == kid

/-- recordKostenpostMapping (learning.ts lines 62-102): when a row for
the (supplier name, kostenpost id) pair exists, the UPDATE of lines
80-86 increments its usage_count and overwrites its confidence with the
parameter, kept unchanged when the parameter is absent (the coalesce of
line 86); otherwise the INSERT of lines 89-100 appends one fresh row
with usage_count 1 and default confidence 1.0. -/
def recordKostenpostMapping (p : RecordParams) (st : MappingStore) : MappingStore :=
  match st.rows.find? (keyMatches p.supplier_name p.kostenpost_id) with
  | some existing =>
    { st with rows := st.rows.map (fun r =>
        if r.id = existing.id then
          { r with usage_count := r.usage_count + 1,
                   confidence := p.confidence.getD existing.confidence }
        else r) }
  | none =>
    { rows := st.rows ++
        [{ id := st.nextId, supplier_name := p.supplier_name,
           supplier_iban := p.supplier_iban, supplier_vat := p.supplier_vat,
           kostenpost_id := p.kostenpost_id,
           kostenpost_name := p.kostenpost_name,
           confidence := p.confidence.getD 1, usage_count := 1 }],
      nextId := st.nextId + 1 }

/-- Well-formedness of the table: distinct row ids bounded by the
autoincrement counter, and the UNIQUE constraint on
(supplier_name, kostenpost_id). -/
def StoreWF (st : MappingStore) : Prop :=
  st.rows.Pairwise (fun a b => a.id ≠ b.id) ∧
  (∀ r ∈ st.rows, r.id < st.nextId) ∧
  st.rows.Pairwise (fun a b =>
    ¬ (a.supplier_name = b.supplier_name ∧ a.kostenpost_id = b.kostenpost_id))

/-- Lookup of the row held for a pair. -/
def lookupMapping (st : MappingStore) (name kid : String) : Option MappingRecord :=
  st.rows.find? (keyMatches name kid)

theorem find?_or_append {α : Type} (p : α → Bool) (l1 l2 : List α) :
    (l1 ++ l2).find? p = (l1.find? p).or (l2.find? p) := by
  induction l1 with
  | nil => rfl
  | cons a t ih =>
    by_cases h : p a = true
    · simp [List.find?_cons_of_pos _ h]
    · rw [List.cons_append, List.find?_cons_of_neg _ (by simpa using h),
        List.find?_cons_of_neg _ (by simpa using h), ih]

theorem map_id_of_ne (t : List MappingRecord) (eid : ℕ)
    (g : MappingRecord → MappingRecord) (h : ∀ r ∈ t, r.id ≠ eid) :
    t.map (fun r => if r.id = eid then g r else r) = t := by
  induction t with
  | nil => rfl
  | cons a s ih =>
    rw [List.map_cons, if_neg (h a (List.mem_cons_self a s)),
      ih (fun r hr => h r (List.mem_cons_of_mem a hr))]

theorem update_rows_decompose (q : MappingRecord → Bool)
    (g : MappingRecord → MappingRecord)
    (rows : List MappingRecord) (existing : MappingRecord)
    (hdist : rows.Pairwise (fun a b => a.id ≠ b.id))
    (hfind : rows.find? q = some existing) :
    ∃ l1 l2, rows = l1 ++ existing :: l2 ∧
      (∀ r ∈ l1, q r = false) ∧
      rows.map (fun r => if r.id = existing.id then g r else r)
        = l1 ++ g existing :: l2 := by
  induction rows with
  | nil => exact absurd hfind (by simp)
  | cons a t ih =>
    rcases List.pairwise_cons.mp hdist with ⟨hhead, htail⟩
    by_cases hq : q a = true
    · rw [List.find?_cons_of_pos _ hq] at hfind
      have ha : a = existing := by injection hfind
      subst ha
      refine ⟨[], t, rfl, by simp, ?_⟩
      rw [List.map_cons, if_pos rfl, List.nil_append,
        map_id_of_ne t a.id _ (fun r hr => Ne.symm (hhead r hr))]
    · rw [List.find?_cons_of_neg _ (by simpa using hq)] at hfind
      obtain ⟨l1, l2, h1, h2, h3⟩ := ih htail hfind
      have hmem : existing ∈ t := List.mem_of_find?_eq_some hfind
      have hane : a.id ≠ existing.id := hhead existing hmem
      refine ⟨a :: l1, l2, by rw [h1]; rfl, ?_, ?_⟩
      · intro r hr
        rcases List.mem_cons.mp hr with hr | hr
        · rw [hr]; simpa using hq
        · exact h2 r hr
      · rw [List.map_cons, if_neg hane, h3]; rfl

/-- C9: every write to the supplier to category memory preserves the
one-row-per-pair invariant; for an existing pair it increments the usage
count and overwrites the confidence (keeping it when no confidence is
supplied), for a new pair it inserts exactly one row with usage count 1,
and no other pair is affected. -/
theorem recordKostenpostMapping_upsert (p : RecordParams) (st : MappingStore)
    (hwf : StoreWF st) :
    StoreWF (recordKostenpostMapping p st) ∧
    ((lookupMapping (recordKostenpostMapping p st) p.supplier_name
        p.kostenpost_id).map (·.usage_count)
      = some (((lookupMapping st p.supplier_name p.kostenpost_id).map
          (·.usage_count)).getD 0 + 1)) ∧
    ((lookupMapping (recordKostenpostMapping p st) p.supplier_name
        p.kostenpost_id).map (·.confidence)
      = some (p.confidence.getD
          (((lookupMapping st p.supplier_name p.kostenpost_id).map
            (·.confidence)).getD 1))) ∧
    ((recordKostenpostMapping p st).rows.length
      = st.rows.length +
        (if lookupMapping st p.supplier_name p.kostenpost_id = none then 1
         else 0)) ∧
    (∀ n k, ¬ (n = p.supplier_name ∧ k = p.kostenpost_id) →
      lookupMapping (recordKostenpostMapping p st) n k =
        lookupMapping st n k) := by
  obtain ⟨hids, hbound, hkeys⟩ := hwf
  cases hfind : st.rows.find? (keyMatches p.supplier_name p.kostenpost_id) with
  | some existing =>
    set g : MappingRecord → MappingRecord := fun r =>
      { r with usage_count := r.usage_count + 1,
               confidence := p.confidence.getD existing.confidence } with hg
    have hrec : recordKostenpostMapping p st =
        { st with rows := st.rows.map (fun r =>
            if r.id = existing.id then g r else r) } := by
      unfold recordKostenpostMapping
      rw [hfind]
    have hfid : ∀ r, ((fun r => if r.id = existing.id then g r else r) r).id
        = r.id := by
      intro r; by_cases h : r.id = existing.id <;> simp [h, hg]
    have hfsn : ∀ r, ((fun r => if r.id = existing.id then g r else r) r).supplier_name
        = r.supplier_name := by
      intro r; by_cases h : r.id = existing.id <;> simp [h, hg]
    have hfkid : ∀ r, ((fun r => if r.id = existing.id then g r else r) r).kostenpost_id
        = r.kostenpost_id := by
      intro r; by_cases h : r.id = existing.id <;> simp [h, hg]
    have hqe : keyMatches p.supplier_name p.kostenpost_id existing = true :=
      List.find?_some hfind
    have hesn : existing.supplier_name = p.supplier_name := by
      have := hqe
      simp [keyMatches] at this
      exact this.1
    have hekid : existing.kostenpost_id = p.kostenpost_id := by
      have := hqe
      simp [keyMatches] at this
      exact this.2
    obtain ⟨l1, l2, hsplit, hl1, hmap⟩ :=
      update_rows_decompose (keyMatches p.supplier_name p.kostenpost_id) g
        st.rows existing hids hfind
    have hql1 : l1.find? (keyMatches p.supplier_name p.kostenpost_id) = none :=
      List.find?_eq_none.mpr (fun r hr => by simp [hl1 r hr])
    have hqg : keyMatches p.supplier_name p.kostenpost_id (g existing) = true := by
      simpa [keyMatches, hg] using hqe
    have hlookup_after : lookupMapping (recordKostenpostMapping p st)
        p.supplier_name p.kostenpost_id = some (g existing) := by
      rw [hrec]
      show (st.rows.map _).find? _ = _
      rw [hmap, find?_or_append, hql1, List.find?_cons_of_pos _ hqg]
      rfl
    have hlookup_before : lookupMapping st p.supplier_name p.kostenpost_id
        = some existing := hfind
    refine ⟨⟨?_, ?_, ?_⟩, ?_, ?_, ?_, ?_⟩
    · rw [hrec]
      refine (List.pairwise_map.mpr (hids.imp ?_))
      intro a b hab
      rw [hfid, hfid]
      exact hab
    · rw [hrec]
      intro r hr
      rcases List.mem_map.mp hr with ⟨r0, hr0, hr0e⟩
      rw [← hr0e, hfid]
      exact hbound r0 hr0
    · rw [hrec]
      refine (List.pairwise_map.mpr (hkeys.imp ?_))
      intro a b hab
      rw [hfsn, hfsn, hfkid, hfkid]
      exact hab
    · rw [hlookup_after, hlookup_before]
      simp [hg]
    · rw [hlookup_after, hlookup_before]
      simp [hg]
    · rw [hrec, hlookup_before]
      simp
    · intro n k hnk
      have hqe' : keyMatches n k existing = false := by
        rcases Bool.eq_false_or_eq_true (keyMatches n k existing) with h | h
        · exfalso
          simp only [keyMatches, Bool.and_eq_true, beq_iff_eq] at h
          exact hnk ⟨by rw [← h.1]; exact hesn, by rw [← h.2]; exact hekid⟩
        · exact h
      have hqg' : keyMatches n k (g existing) = false := by
        simpa [keyMatches, hg] using hqe'
      rw [hrec]
      show (st.rows.map _).find? _ = st.rows.find? _
      rw [hmap, hsplit, find?_or_append, find?_or_append,
        List.find?_cons_of_neg _ (by simpa using hqg'),
        List.find?_cons_of_neg _ (by simpa using hqe')]
  | none =>
    set newRow : MappingRecord :=
      { id := st.nextId, supplier_name := p.supplier_name,
        supplier_iban := p.supplier_iban, supplier_vat := p.supplier_vat,
        kostenpost_id := p.kostenpost_id,
        kostenpost_name := p.kostenpost_name,
        confidence := p.confidence.getD 1, usage_count := 1 } with hnew
    have hrec : recordKostenpostMapping p st =
        { rows := st.rows ++ [newRow], nextId := st.nextId + 1 } := by
      unfold recordKostenpostMapping
      rw [hfind]
    have hall : ∀ r ∈ st.rows,
        keyMatches p.supplier_name p.kostenpost_id r = false := by
      intro r hr
      have := List.find?_eq_none.mp hfind r hr
      simpa using this
    have hqnew : keyMatches p.supplier_name p.kostenpost_id newRow = true := by
      simp [keyMatches, hnew]
    refine ⟨⟨?_, ?_, ?_⟩, ?_, ?_, ?_, ?_⟩
    · rw [hrec]
      refine List.pairwise_append.mpr ⟨hids, List.pairwise_singleton _ _, ?_⟩
      intro a ha b hb
      rcases List.mem_singleton.mp hb with rfl
      have := hbound a ha
      simp only [hnew]
      omega
    · rw [hrec]
      intro r hr
      show r.id < st.nextId + 1
      rcases List.mem_append.mp hr with hr | hr
      · have := hbound r hr
        omega
      · rcases List.mem_singleton.mp hr with rfl
        simp only [hnew]
        omega
    · rw [hrec]
      refine List.pairwise_append.mpr ⟨hkeys, List.pairwise_singleton _ _, ?_⟩
      intro a ha b hb
      rcases List.mem_singleton.mp hb with rfl
      intro hcon
      have := hall a ha
      simp only [hnew] at hcon
      simp [keyMatches, hcon.1, hcon.2] at this
    · rw [show lookupMapping (recordKostenpostMapping p st) p.supplier_name
          p.kostenpost_id = some newRow by
        rw [hrec]
        show (st.rows ++ [newRow]).find? _ = _
        rw [find?_or_append, List.find?_eq_none.mpr
          (fun r hr => by simp [hall r hr]), List.find?_cons_of_pos _ hqnew]
        rfl]
      rw [show lookupMapping st p.supplier_name p.kostenpost_id = none from hfind]
      simp [hnew]
    · rw [show lookupMapping (recordKostenpostMapping p st) p.supplier_name
          p.kostenpost_id = some newRow by
        rw [hrec]
        show (st.rows ++ [newRow]).find? _ = _
        rw [find?_or_append, List.find?_eq_none.mpr
          (fun r hr => by simp [hall r hr]), List.find?_cons_of_pos _ hqnew]
        rfl]
      rw [show lookupMapping st p.supplier_name p.kostenpost_id = none from hfind]
      simp [hnew]
    · rw [hrec, show lookupMapping st p.supplier_name p.kostenpost_id = none
        from hfind]
      simp
    · intro n k hnk
      have hqnew' : keyMatches n k newRow = false := by
        rcases Bool.eq_false_or_eq_true (keyMatches n k newRow) with h | h
        · exfalso
          simp only [keyMatches, hnew, Bool.and_eq_true, beq_iff_eq] at h
          exact hnk ⟨h.1.symm, h.2.symm⟩
        · exact h
      rw [hrec]
      show (st.rows ++ [newRow]).find? _ = st.rows.find? _
      rw [find?_or_append]
      rw [List.find?_cons_of_neg _ (by simpa using hqnew')]
      show (st.rows.find? _).or (List.find? _ []) = _
      rw [List.find?_nil, Option.or_none]

/-- Concrete parameters for the C9 witness. -/
def c9Params : RecordParams :=
  { supplier_name := "acme", kostenpost_id := "k1",
    kostenpost_name := "Software", confidence := some (9/10) }

/-- The empty memory store. -/
def c9Store0 : MappingStore := { rows := [], nextId := 0 }

/-- The store after recording the witness mapping once. -/
def c9Store1 : MappingStore := recordKostenpostMapping c9Params c9Store0

/-- Witness for C9: recording a fresh pair inserts one row with usage
count 1; recording the same pair again keeps a single row and bumps the
usage count to 2, preserving well-formedness throughout. -/
theorem recordKostenpostMapping_upsert_witness :
    StoreWF c9Store0 ∧
    ((lookupMapping c9Store1 c9Params.supplier_name
        c9Params.kostenpost_id).map (·.usage_count) = some 1) ∧
    c9Store1.rows.length = 1 ∧
    StoreWF (recordKostenpostMapping c9Params c9Store1) ∧
    ((lookupMapping (recordKostenpostMapping c9Params c9Store1)
        c9Params.supplier_name c9Params.kostenpost_id).map (·.usage_count)
      = some 2) ∧
    (recordKostenpostMapping c9Params c9Store1).rows.length = 1 := by
  have hwf0 : StoreWF c9Store0 :=
    ⟨List.Pairwise.nil, by simp [c9Store0], List.Pairwise.nil⟩
  have h0 := recordKostenpostMapping_upsert c9Params c9Store0 hwf0
  have h1 := recordKostenpostMapping_upsert c9Params c9Store1 h0.1
  have hl0 : lookupMapping c9Store0 c9Params.supplier_name
      c9Params.kostenpost_id = none := rfl
  have husage1 : (lookupMapping c9Store1 c9Params.supplier_name
      c9Params.kostenpost_id).map (·.usage_count) = some 1 := by
    have := h0.2.1
    rw [hl0] at this
    simpa using this
  have hlen1 : c9Store1.rows.length = 1 := by
    have := h0.2.2.2.1
    rw [hl0] at this
    simpa [c9Store0] using this
  have hne1 : lookupMapping c9Store1 c9Params.supplier_name
      c9Params.kostenpost_id ≠ none := by
    intro hcon
    rw [hcon] at husage1
    exact Option.noConfusion husage1
  refine ⟨hwf0, husage1, hlen1, h1.1, ?_, ?_⟩
  · have := h1.2.1
    cases hl : lookupMapping c9Store1 c9Params.supplier_name
        c9Params.kostenpost_id with
    | none => exact absurd hl hne1
    | some r =>
      rw [hl] at this husage1
      have hr : r.usage_count = 1 := by simpa using husage1
      rw [this]
      simp [hr]
  · have := h1.2.2.2.1
    rw [if_neg hne1] at this
    rw [this, hlen1]

end MoneybirdAgent
